import Mathlib

/-!
A shallow embedding of the `message-db` Rust client (stream-name grammar,
message metadata, and the category subscription engine) together with proofs
of the specification's claims about it.

Text is modelled as `List Char`.  Rust's `str::split_once` is `splitOnceChar`,
`str::split` is `splitChar`, and joining with a separator is `joinChar`.
-/

/-- Rust `str::split_once(c)`: split at the first occurrence of `c`,
returning `none` when `c` does not occur. -/
def splitOnceChar (c : Char) : List Char → Option (List Char × List Char)
  | [] => none
  | a :: rest =>
    if a = c then some ([], rest)
    else
      match splitOnceChar c rest with
      | some (l, r) => some (a :: l, r)
      | none => none

/-- Rust `str::split(c)`: the empty string yields `[[]]`, and every
occurrence of `c` starts a new piece. -/
def splitChar (c : Char) : List Char → List (List Char)
  | [] => [[]]
  | a :: rest =>
    match splitChar c rest with
    | [] => [[]]
    | p :: ps => if a = c then [] :: p :: ps else (a :: p) :: ps

/-- Join pieces with the separator `c` between them (inverse of `splitChar`). -/
def joinChar (c : Char) : List (List Char) → List Char
  | [] => []
  | [p] => p
  | p :: q :: ps => p ++ c :: joinChar c (q :: ps)

/-- The crate's error enum (`src/error.rs`), restricted to the variants the
embedded code can produce. -/
inductive Error where
  | EmptyStreamName
  | DeserializeData (msg : List Char)
  | Decode (expected : List Char)
  | Database (msg : List Char)
deriving DecidableEq, Repr

/-- `Category` from `src/stream_name/category.rs`: an entity name and a list
of category types. -/
structure Category where
  entity_name : List Char
  types : List (List Char)
deriving DecidableEq, Repr

/-- `Category::CATEGORY_TYPE_SEPARATOR` (`:`). -/
def Category.CATEGORY_TYPE_SEPARATOR : Char := ':'

/-- `Category::COMPOUNT_TYPE_SEPARATOR` (`+`), name kept from the source. -/
def Category.COMPOUNT_TYPE_SEPARATOR : Char := '+'

/-- `Category::new`: fails with `EmptyStreamName` when the entity name is
empty. -/
def Category.new (entity_name : List Char) (types : List (List Char)) :
    Except Error Category :=
  if entity_name = [] then .error .EmptyStreamName
  else .ok { entity_name, types }

/-- `Category::from_str`: split once on `:`; the right side, when present, is
split on `+` into the types.  Note the source performs no emptiness check
here. -/
def Category.from_str (s : List Char) : Except Error Category :=
  match splitOnceChar Category.CATEGORY_TYPE_SEPARATOR s with
  | some (entity_name, types) =>
      .ok { entity_name, types := splitChar Category.COMPOUNT_TYPE_SEPARATOR types }
  | none => .ok { entity_name := s, types := [] }

/-- `Display for Category`: entity name, then `:`-prefixed `+`-joined types
when any are present. -/
def Category.fmt (c : Category) : List Char :=
  c.entity_name ++
    (if c.types = [] then []
     else Category.CATEGORY_TYPE_SEPARATOR :: joinChar Category.COMPOUNT_TYPE_SEPARATOR c.types)

/-- `ID` from `src/stream_name/id.rs`: a list of ID components. -/
structure ID where
  ids : List (List Char)
deriving DecidableEq, Repr

/-- `ID::COMPOUND_ID_SEPARATOR` (`+`). -/
def ID.COMPOUND_ID_SEPARATOR : Char := '+'

/-- `ID::new_compound`: fails when the list is empty or any component is
empty. -/
def ID.new_compound (ids : List (List Char)) : Except Error ID :=
  if ids.isEmpty || ids.any (fun id => id.isEmpty) then .error .EmptyStreamName
  else .ok { ids }

/-- `ID::new`: fails on the empty string, otherwise splits on `+` and
delegates to `new_compound`. -/
def ID.new (id : List Char) : Except Error ID :=
  if id = [] then .error .EmptyStreamName
  else ID.new_compound (splitChar ID.COMPOUND_ID_SEPARATOR id)

/-- `FromStr for ID` delegates to `ID::new`. -/
def ID.from_str (s : List Char) : Except Error ID := ID.new s

/-- `ID::cardinal_id`: `self.0.first()`, with the source's `unwrap` modelled
by the `Option`. -/
def ID.cardinal_id (id : ID) : Option (List Char) := id.ids.head?

/-- `Display for ID`: components joined with `+`. -/
def ID.fmt (id : ID) : List Char := joinChar ID.COMPOUND_ID_SEPARATOR id.ids

/-- `StreamName` from `src/stream_name.rs`: a category and an optional ID. -/
structure StreamName where
  category : Category
  id : Option ID
deriving DecidableEq, Repr

/-- `StreamName::ID_SEPARATOR` (`-`). -/
def StreamName.ID_SEPARATOR : Char := '-'

/-- `StreamName::is_category` exactly as written in the source:
`stream_name.contains(Self::ID_SEPARATOR)`. -/
def StreamName.is_category (stream_name : List Char) : Bool :=
  stream_name.contains StreamName.ID_SEPARATOR

/-- `StreamName::category`: the part before the first `-`, or the whole
string when there is none. -/
def StreamName.category_part (stream_name : List Char) : List Char :=
  match splitOnceChar StreamName.ID_SEPARATOR stream_name with
  | some (category, _) => category
  | none => stream_name

/-- `FromStr for StreamName`: split once on `-`; the left part parses as a
category, the right part (when present) as an ID. -/
def StreamName.from_str (s : List Char) : Except Error StreamName :=
  match splitOnceChar StreamName.ID_SEPARATOR s with
  | some (category_part, id_part) =>
    match Category.from_str category_part with
    | .ok category =>
      match ID.from_str id_part with
      | .ok id => .ok { category, id := some id }
      | .error e => .error e
    | .error e => .error e
  | none =>
    match Category.from_str s with
    | .ok category => .ok { category, id := none }
    | .error e => .error e

/-- `Display for StreamName`: the category, then `-` and the ID when one is
present. -/
def StreamName.fmt (sn : StreamName) : List Char :=
  Category.fmt sn.category ++
    (match sn.id with
     | some id => StreamName.ID_SEPARATOR :: ID.fmt id
     | none => [])

/-- A JSON value (`serde_json::Value`), with integers for the numbers the
embedded code manipulates. -/
inductive Json where
  | null
  | bool (b : Bool)
  | num (n : Int)
  | str (s : List Char)
  | arr (elems : List Json)
  | obj (fields : List ((List Char) × Json))

/-- `Metadata` from `src/message.rs`.  The `properties` maps model the
`HashMap`s by their lookup functions. -/
structure Metadata where
  stream_name : Option (List Char)
  position : Option Int
  global_position : Option Int
  causation_message_stream_name : Option (List Char)
  causation_message_position : Option Int
  causation_message_global_position : Option Int
  correlation_stream_name : Option (List Char)
  reply_stream_name : Option (List Char)
  schema_version : Option (List Char)
  properties : (List Char) → Option Json
  local_properties : (List Char) → Option Json

/-- `Metadata::default()`: every field absent. -/
def Metadata.mk_default : Metadata :=
  { stream_name := none
    position := none
    global_position := none
    causation_message_stream_name := none
    causation_message_position := none
    causation_message_global_position := none
    correlation_stream_name := none
    reply_stream_name := none
    schema_version := none
    properties := fun _ => none
    local_properties := fun _ => none }

/-- `Metadata::follow`: copy the preceding message's own stream-identifying
fields into the causation fields, carry over correlation and reply stream
names, and extend `properties` (preceding entries win, as `HashMap::extend`
overwrites). -/
def Metadata.follow (m : Metadata) (preceding_metadata : Metadata) : Metadata :=
  { m with
    causation_message_stream_name := preceding_metadata.stream_name
    causation_message_position := preceding_metadata.position
    causation_message_global_position := preceding_metadata.global_position
    correlation_stream_name := preceding_metadata.correlation_stream_name
    reply_stream_name := preceding_metadata.reply_stream_name
    properties := fun k =>
      match preceding_metadata.properties k with
      | some v => some v
      | none => m.properties k }

/-- `Metadata::follows`: the early-return chain of the source, in order. -/
def Metadata.follows (m : Metadata) (preceding_metadata : Metadata) : Bool :=
  if m.causation_message_stream_name = none ∧ preceding_metadata.stream_name = none then
    false
  else if m.causation_message_stream_name ≠ preceding_metadata.stream_name then
    false
  else if m.causation_message_position = none ∧ preceding_metadata.position = none then
    false
  else if m.causation_message_position ≠ preceding_metadata.position then
    false
  else if m.causation_message_global_position = none ∧
      preceding_metadata.global_position = none then
    false
  else if m.causation_message_global_position ≠ preceding_metadata.global_position then
    false
  else if preceding_metadata.correlation_stream_name ≠ none ∧
      m.correlation_stream_name ≠ preceding_metadata.correlation_stream_name then
    false
  else if preceding_metadata.reply_stream_name ≠ none ∧
      m.reply_stream_name ≠ preceding_metadata.reply_stream_name then
    false
  else
    true

/-- `Message<T>` from `src/message.rs`; the UUID is its textual form and the
timestamp a millisecond count. -/
structure Message (T : Type) where
  id : List Char
  stream_name : StreamName
  msg_type : List Char
  position : Int
  global_position : Int
  data : T
  metadata : Metadata
  time : Int

/-- `GenericMessage`: a message whose data is raw optional JSON. -/
abbrev GenericMessage := Message (Option Json)

/-- `Message::deserialize_data`, parameterised by the serde decoder of the
target type: decode `data.unwrap_or_default()` and rebuild the message with
every other field untouched. -/
def Message.deserialize_data {T : Type} (dec : Json → Except (List Char) T)
    (m : GenericMessage) : Except (List Char) (Message T) :=
  match dec (m.data.getD Json.null) with
  | .ok data =>
      .ok { id := m.id, stream_name := m.stream_name, msg_type := m.msg_type,
            position := m.position, global_position := m.global_position,
            data, metadata := m.metadata, time := m.time }
  | .error e => .error e

/-- The `Recorded { position: i64 }` checkpoint payload of
`src/database/consumer.rs`. -/
structure Recorded where
  position : Int
deriving DecidableEq, Repr

/-- serde deserialization of `Recorded` from a JSON value: an object whose
`"position"` field is an integer; other fields are ignored. -/
def Recorded.from_json (j : Json) : Option Recorded :=
  match j with
  | .obj fields =>
    match fields.lookup (("position").data) with
    | some (Json.num n) => some { position := n }
    | _ => none
  | _ => none

/-- serde serialization of `Recorded`: `{"position": n}`. -/
def Recorded.to_json (r : Recorded) : Json :=
  Json.obj [((("position").data), Json.num r.position)]

/-- `GetCategoryMessagesOpts` from `src/database/client.rs`. -/
structure GetCategoryMessagesOpts where
  position : Option Int
  batch_size : Option Int
  correlation : Option (List Char)
  consumer_group_member : Option Int
  consumer_group_size : Option Int
  condition : Option (List Char)
deriving DecidableEq, Repr

/-- `SubscribeToCategoryOpts` from `src/database/consumer.rs`, with the
builder defaults; `poll_interval` is in milliseconds. -/
structure SubscribeToCategoryOpts where
  poll_interval : Nat := 100
  batch_size : Option Int := none
  position_update_interval : Nat := 100
  identifier : Option (List Char) := none
  correlation : Option (List Char) := none
  group_member : Option Int := none
  group_size : Option Int := none
  condition : Option (List Char) := none

/-- `MessageDb::position_stream_name`: append the reserved `"position"` type
to the category's types when absent, and parse the consumer identifier (when
given) as the stream ID. -/
def position_stream_name (category : Category) (consumer_identifier : Option (List Char)) :
    Except Error StreamName :=
  let POSITION_TYPE : List Char := ("position").data
  let category :=
    if category.types.any (fun t => t = POSITION_TYPE) then category
    else { category with types := category.types ++ [POSITION_TYPE] }
  match consumer_identifier with
  | some s =>
    match ID.from_str s with
    | .ok id => .ok { category, id := some id }
    | .error e => .error e
  | none => .ok { category, id := none }

/-- The write request constructed by
`MessageDb::write_consumer_position_to_stream` (via
`make_update_position_future`): a message of type `"position"` whose body is
the serialized `Recorded` payload, written with the given expected version. -/
structure WriteRequest where
  stream_name : List Char
  msg_type : List Char
  data : Json
  expected_version : Option Int

/-- `write_consumer_position_to_stream` composed with the expected-version
options of `make_update_position_future`. -/
def write_consumer_position_request (stream_name : List Char) (position : Int)
    (expected_version : Int) : WriteRequest :=
  { stream_name
    msg_type := ("position").data
    data := Recorded.to_json { position }
    expected_version := some expected_version }

/-- The re-armed fetch slot (`ReusableBoxFuture` in the source): the options
the next `get_category_messages` call will use, and the self-paced delay in
milliseconds before it runs. -/
structure FetchSlot where
  opts : GetCategoryMessagesOpts
  sleep : Nat
deriving DecidableEq, Repr

/-- `CategoryStream` from `src/database/consumer.rs`: the retained state of
the category subscription engine. -/
structure CategoryStream (T : Type) where
  category_name : List Char
  fut : FetchSlot
  messages : List (Message T)
  poll_interval : Nat
  position_update_interval : Nat
  messages_since_last_position_update : Nat
  update_position_future : Option WriteRequest
  consumer_stream_name : List Char
  expected_position_version : Int

/-- What the two retained asynchronous operations return when polled this
tick: `none` models `Poll::Pending`.  A ready fetch carries
`(batch result, options the fetch used, elapsed milliseconds since the fetch
started)`. -/
structure PollEnv where
  fetch_poll : Option ((Except Error (List GenericMessage)) × GetCategoryMessagesOpts × Nat)
  position_poll : Option (Except Error Int)

/-- The outcome of one `poll_next` call: `Poll::Pending`, or
`Poll::Ready(Some(item))`.  The stream never returns `Ready(None)`. -/
inductive PollOutput (T : Type) where
  | pending
  | item (res : Except Error (Message T))

/-- Step 2 of `poll_next`: when a checkpoint write is in flight and it polls
ready (successfully or not), clear it; otherwise leave the state alone. -/
def step_update_position {T : Type} (s : CategoryStream T) (env : PollEnv) :
    CategoryStream T :=
  match s.update_position_future, env.position_poll with
  | some _, some _ => { s with update_position_future := none }
  | _, _ => s

/-- The checkpoint bookkeeping of the non-empty-batch arm of `poll_next`:
bump the message counter by the batch length; when it reaches the interval,
start a checkpoint write at the batch head's global position with the
current `expected_version`, speculatively bump `expected_version`, and reset
the counter. -/
def checkpoint_step {T : Type} (s2 : CategoryStream T) (first : GenericMessage)
    (more : List GenericMessage) : CategoryStream T :=
  let count := s2.messages_since_last_position_update + (first :: more).length
  if s2.position_update_interval ≤ count then
    { s2 with
      update_position_future :=
        some (write_consumer_position_request s2.consumer_stream_name
          first.global_position s2.expected_position_version)
      expected_position_version := s2.expected_position_version + 1
      messages_since_last_position_update := 0 }
  else { s2 with messages_since_last_position_update := count }

/-- The non-empty-successful-batch arm of `poll_next`: checkpoint
bookkeeping, then decode the whole batch; the first decode error fails the
whole batch, otherwise the decoded head is returned and the rest buffered. -/
def handle_batch {T : Type} (dec : Json → Except (List Char) T)
    (s2 : CategoryStream T) (first : GenericMessage) (more : List GenericMessage) :
    PollOutput T × CategoryStream T :=
  let s3 := checkpoint_step s2 first more
  match Message.deserialize_data dec first with
  | .error e => (.item (.error (.DeserializeData e)), s3)
  | .ok d =>
    match more.mapM (Message.deserialize_data dec) with
    | .ok ds => (.item (.ok d), { s3 with messages := ds })
    | .error e => (.item (.error (.DeserializeData e)), s3)

/-- `Stream::poll_next` for `CategoryStream`: return the buffered head when
there is one; otherwise advance the checkpoint write, wait on the fetch,
re-arm the fetch slot (advancing the position past the batch's last message
and self-pacing by `poll_interval` minus the elapsed time), and surface the
batch, the fetch error, or pending. -/
def poll_next {T : Type} (dec : Json → Except (List Char) T)
    (s : CategoryStream T) (env : PollEnv) : PollOutput T × CategoryStream T :=
  match s.messages with
  | first_message :: rest => (.item (.ok first_message), { s with messages := rest })
  | [] =>
    let s1 := step_update_position s env
    match env.fetch_poll with
    | none => (.pending, s1)
    | some (result, opts, elapsed) =>
      let opts :=
        match result with
        | .ok msgs =>
          match msgs.getLast? with
          | some last => { opts with position := some (last.global_position + 1) }
          | none => opts
        | .error _ => opts
      let s2 := { s1 with fut := { opts, sleep := s1.poll_interval - elapsed } }
      match result with
      | .error e => (.item (.error e), s2)
      | .ok [] => (.pending, s2)
      | .ok (first :: more) => handle_batch dec s2 first more

/-- `MessageDb::subscribe_to_category`, with the backend's answer to the
initial `get_last_stream_message(checkpoint stream, Some("position"))` call
supplied as `last_message`: derive the checkpoint stream, take the last
checkpoint message's own position as the initial `expected_version` (or
`-1`), decode its `{position}` payload and start reading at `position + 1`
(or `-1`), and build the engine state with an armed first fetch. -/
def subscribe_to_category {T : Type} (category_name : List Char)
    (opts : SubscribeToCategoryOpts) (last_message : Option GenericMessage) :
    Except Error (CategoryStream T) :=
  match Category.from_str category_name with
  | .error e => .error e
  | .ok category =>
    match position_stream_name category opts.identifier with
    | .error e => .error e
    | .ok psn =>
      let stream_name := StreamName.fmt psn
      let expected_version :=
        match last_message with
        | some last => last.position
        | none => -1
      let last_position : Except Error Int :=
        match last_message with
        | some last =>
          match Recorded.from_json (last.data.getD Json.null) with
          | some recorded => .ok (recorded.position + 1)
          | none => .error (.Decode (("recorded position").data))
        | none => .ok (-1)
      match last_position with
      | .error e => .error e
      | .ok last_position =>
        .ok { category_name
              fut :=
                { opts :=
                    { position := some last_position
                      batch_size := opts.batch_size
                      correlation := opts.correlation
                      consumer_group_member := opts.group_member
                      consumer_group_size := opts.group_size
                      condition := opts.condition }
                  sleep := 0 }
              messages := []
              poll_interval := opts.poll_interval
              position_update_interval := opts.position_update_interval
              messages_since_last_position_update := 0
              update_position_future := none
              consumer_stream_name := stream_name
              expected_position_version := expected_version }

/-- A trivial payload decoder, used to instantiate the engine at `T := Unit`
for concrete evaluations. -/
def dec0 : Json → Except (List Char) Unit := fun _ => .ok ()

/-- An entity stream name used by concrete batch messages. -/
def sn_entity : StreamName :=
  { category := { entity_name := ("account").data, types := [] }
    id := some { ids := [("123").data] } }

/-- A concrete checkpoint message: stream position 3, payload
`{"position": 7}`. -/
def checkpoint_msg : GenericMessage :=
  { id := ("cp1").data
    stream_name := { category := { entity_name := ("account").data, types := [("position").data] }, id := none }
    msg_type := ("position").data
    position := 3
    global_position := 40
    data := some (Json.obj [((("position").data), Json.num 7)])
    metadata := Metadata.mk_default
    time := 0 }

/-- A concrete batch message with global position 5. -/
def batch_msg5 : GenericMessage :=
  { id := ("m1").data
    stream_name := sn_entity
    msg_type := ("Deposited").data
    position := 0
    global_position := 5
    data := some (Json.obj [])
    metadata := Metadata.mk_default
    time := 0 }

/-- Concrete fetch options used by the armed fetch slot in the examples. -/
def fetch_opts0 : GetCategoryMessagesOpts :=
  { position := some 0, batch_size := none, correlation := none
    consumer_group_member := none, consumer_group_size := none, condition := none }

/-- A concrete engine state with `position_update_interval = 0`, an empty
buffer and no checkpoint write in flight. -/
def engine_a : CategoryStream Unit :=
  { category_name := ("account").data
    fut := { opts := fetch_opts0, sleep := 0 }
    messages := []
    poll_interval := 100
    position_update_interval := 0
    messages_since_last_position_update := 0
    update_position_future := none
    consumer_stream_name := ("account:position").data
    expected_position_version := -1 }

/-- A concrete engine state whose checkpoint-write slot is already occupied
by a still-pending write, with the interval about to be reached. -/
def engine_b : CategoryStream Unit :=
  { engine_a with
    position_update_interval := 2
    messages_since_last_position_update := 1
    update_position_future :=
      some (write_consumer_position_request (("account:position").data) 99 77)
    expected_position_version := 0 }

/-- A poll tick on which the fetch completes with the one-message batch
`[batch_msg5]` and the checkpoint write (if any) is still pending. -/
def env_batch1 : PollEnv :=
  { fetch_poll := some (.ok [batch_msg5], fetch_opts0, 0)
    position_poll := none }

/-- The engine state `subscribe_to_category "account" {} (some checkpoint_msg)`
constructs. -/
def engine_resume : CategoryStream Unit :=
  { category_name := ("account").data
    fut :=
      { opts :=
          { position := some 8, batch_size := none, correlation := none
            consumer_group_member := none, consumer_group_size := none, condition := none }
        sleep := 0 }
    messages := []
    poll_interval := 100
    position_update_interval := 100
    messages_since_last_position_update := 0
    update_position_future := none
    consumer_stream_name := ("account:position").data
    expected_position_version := 3 }

/-- The engine state `subscribe_to_category "account" {} none` constructs. -/
def engine_fresh : CategoryStream Unit :=
  { engine_resume with
    fut :=
      { opts :=
          { position := some (-1), batch_size := none, correlation := none
            consumer_group_member := none, consumer_group_size := none, condition := none }
        sleep := 0 }
    expected_position_version := -1 }

/-- A concrete metadata value whose source-identifying fields are all set. -/
def meta_b : Metadata :=
  { Metadata.mk_default with
    stream_name := some (("account-123").data)
    position := some 3
    global_position := some 7 }

theorem splitChar_ne_nil (c : Char) (s : List Char) : splitChar c s ≠ [] := by
  cases s with
  | nil => simp [splitChar]
  | cons a rest =>
    simp only [splitChar]
    cases h : splitChar c rest with
    | nil => simp
    | cons p ps =>
      by_cases hac : a = c
      · simp [hac]
      · simp [hac]

theorem joinChar_splitChar (c : Char) (s : List Char) :
    joinChar c (splitChar c s) = s := by
  induction s with
  | nil => rfl
  | cons a rest ih =>
    simp only [splitChar]
    cases h : splitChar c rest with
    | nil => exact absurd h (splitChar_ne_nil c rest)
    | cons p ps =>
      rw [h] at ih
      by_cases hac : a = c
      · subst hac
        simp only [if_pos rfl, joinChar]
        rw [List.nil_append, ih]
      · simp only [if_neg hac]
        cases ps with
        | nil =>
          simp only [joinChar] at ih ⊢
          rw [ih]
        | cons q qs =>
          simp only [joinChar] at ih ⊢
          rw [List.cons_append, ih]

theorem splitOnceChar_eq_some (c : Char) (s l r : List Char)
    (h : splitOnceChar c s = some (l, r)) : s = l ++ c :: r := by
  induction s generalizing l with
  | nil => simp [splitOnceChar] at h
  | cons a rest ih =>
    simp only [splitOnceChar] at h
    by_cases hac : a = c
    · rw [if_pos hac] at h
      obtain ⟨rfl, rfl⟩ := by simpa using h
      simp [hac]
    · rw [if_neg hac] at h
      cases hsp : splitOnceChar c rest with
      | none => rw [hsp] at h; simp at h
      | some pr =>
        obtain ⟨p, q⟩ := pr
        rw [hsp] at h
        obtain ⟨rfl, rfl⟩ := by simpa using h
        simp [ih p hsp]

theorem category_fmt_of_parse (s : List Char) (c : Category)
    (h : Category.from_str s = .ok c) : Category.fmt c = s := by
  unfold Category.from_str at h
  cases hsp : splitOnceChar Category.CATEGORY_TYPE_SEPARATOR s with
  | some pr =>
    obtain ⟨e, t⟩ := pr
    rw [hsp] at h
    obtain rfl := by simpa using h
    unfold Category.fmt
    simp only [if_neg (splitChar_ne_nil Category.COMPOUNT_TYPE_SEPARATOR t)]
    rw [joinChar_splitChar]
    exact (splitOnceChar_eq_some _ _ _ _ hsp).symm
  | none =>
    rw [hsp] at h
    obtain rfl := by simpa using h
    unfold Category.fmt
    simp

theorem id_fmt_of_parse (s : List Char) (i : ID)
    (h : ID.from_str s = .ok i) : ID.fmt i = s := by
  unfold ID.from_str ID.new ID.new_compound at h
  by_cases hs : s = []
  · rw [if_pos hs] at h; simp at h
  · rw [if_neg hs] at h
    by_cases hcond :
        (splitChar ID.COMPOUND_ID_SEPARATOR s).isEmpty
          || (splitChar ID.COMPOUND_ID_SEPARATOR s).any (fun id => id.isEmpty)
    · rw [if_pos hcond] at h; simp at h
    · rw [if_neg hcond] at h
      obtain rfl := by simpa using h
      unfold ID.fmt
      exact joinChar_splitChar _ s

theorem stream_name_fmt_of_parse (s : List Char) (sn : StreamName)
    (h : StreamName.from_str s = .ok sn) : StreamName.fmt sn = s := by
  unfold StreamName.from_str at h
  cases hsp : splitOnceChar StreamName.ID_SEPARATOR s with
  | some pr =>
    obtain ⟨cp, ip⟩ := pr
    rw [hsp] at h
    dsimp only at h
    cases hc : Category.from_str cp with
    | error e => rw [hc] at h; simp at h
    | ok cat =>
      rw [hc] at h
      cases hi : ID.from_str ip with
      | error e => rw [hi] at h; simp at h
      | ok idv =>
        rw [hi] at h
        obtain rfl := by simpa using h
        unfold StreamName.fmt
        simp only
        rw [category_fmt_of_parse cp cat hc, id_fmt_of_parse ip idv hi]
        exact (splitOnceChar_eq_some _ _ _ _ hsp).symm
  | none =>
    rw [hsp] at h
    dsimp only at h
    cases hc : Category.from_str s with
    | error e => rw [hc] at h; simp at h
    | ok cat =>
      rw [hc] at h
      obtain rfl := by simpa using h
      unfold StreamName.fmt
      simp only
      rw [category_fmt_of_parse s cat hc]
      simp

/-- C7: for every `StreamName` value produced by the parser, formatting it
and parsing the result yields the same value: `parse(to_string(x)) == x`. -/
theorem stream_name_roundtrip (s : List Char) (sn : StreamName)
    (h : StreamName.from_str s = .ok sn) :
    StreamName.from_str (StreamName.fmt sn) = .ok sn := by
  rw [stream_name_fmt_of_parse s sn h]
  exact h

/-- Witness for `stream_name_roundtrip` at the concrete stream name
`"account:command-123"`. -/
theorem stream_name_roundtrip_witness :
    StreamName.from_str (StreamName.fmt
      { category := { entity_name := ("account").data, types := [("command").data] }
        id := some { ids := [("123").data] } }) =
      .ok { category := { entity_name := ("account").data, types := [("command").data] }
            id := some { ids := [("123").data] } } :=
  stream_name_roundtrip (("account:command-123").data) _ rfl

/-- C5: the source's `StreamName::is_category` returns
`stream_name.contains('-')`: it is `true` on the entity stream name
`"account-123"` (which contains the id separator) and `false` on the
category stream name `"account"` (which does not) — the opposite of its own
documentation and of the claim. -/
theorem is_category_is_inverted :
    StreamName.is_category (("account-123").data) = true ∧
    (("account-123").data).contains StreamName.ID_SEPARATOR = true ∧
    StreamName.is_category (("account").data) = false ∧
    (("account").data).contains StreamName.ID_SEPARATOR = false := by
  refine ⟨by decide, by decide, by decide, by decide⟩

/-- C6 counterexample: `parse("")` does not fail — it succeeds with an empty
entity name, refuting the claim that all four inputs fail with the
empty-identifier error. -/
theorem parse_empty_succeeds :
    StreamName.from_str [] =
      .ok { category := { entity_name := [], types := [] }, id := none } := rfl

/-- C6 (amended): `parse("cat-")` and `parse("cat-id+")` fail with the
empty-identifier error (via ID construction), while `parse("")` and
`parse(":type")` succeed, because `Category` parsing performs no emptiness
check. -/
theorem grammar_rejection_amended :
    StreamName.from_str (("cat-").data) = .error .EmptyStreamName ∧
    StreamName.from_str (("cat-id+").data) = .error .EmptyStreamName ∧
    StreamName.from_str [] =
      .ok { category := { entity_name := [], types := [] }, id := none } ∧
    StreamName.from_str ((":type").data) =
      .ok { category := { entity_name := [], types := [("type").data] }, id := none } :=
  ⟨rfl, rfl, rfl, rfl⟩

/-- C10: every `ID` built by `ID::new_compound` or `ID::new` has a non-empty
component list with no empty component, so `cardinal_id` (the source's
`self.0.first().unwrap()`) is the first component and never panics. -/
theorem id_invariant_cardinal (ids : List (List Char)) (s : List Char) (i j : ID)
    (hc : ID.new_compound ids = .ok i) (hn : ID.new s = .ok j) :
    (i.ids ≠ [] ∧ (∀ x ∈ i.ids, x ≠ []) ∧
      ∃ c rest, i.ids = c :: rest ∧ ID.cardinal_id i = some c) ∧
    (j.ids ≠ [] ∧ (∀ x ∈ j.ids, x ≠ []) ∧
      ∃ c rest, j.ids = c :: rest ∧ ID.cardinal_id j = some c) := by
  have main : ∀ (l : List (List Char)) (k : ID), ID.new_compound l = .ok k →
      k.ids ≠ [] ∧ (∀ x ∈ k.ids, x ≠ []) ∧
        ∃ c rest, k.ids = c :: rest ∧ ID.cardinal_id k = some c := by
    intro l k hk
    unfold ID.new_compound at hk
    by_cases hcond : l.isEmpty || l.any (fun id => id.isEmpty)
    · rw [if_pos hcond] at hk; simp at hk
    · rw [if_neg hcond] at hk
      obtain rfl := by simpa using hk
      rw [Bool.or_eq_true, not_or] at hcond
      obtain ⟨hne, hany⟩ := hcond
      refine ⟨by simpa [List.isEmpty_iff] using hne, ?_, ?_⟩
      · intro x hx
        intro hxnil
        refine hany ?_
        rw [List.any_eq_true]
        exact ⟨x, hx, by simp [hxnil]⟩
      · cases l with
        | nil => simp [List.isEmpty] at hne
        | cons c rest => exact ⟨c, rest, rfl, rfl⟩
  refine ⟨main ids i hc, ?_⟩
  unfold ID.new at hn
  by_cases hs : s = []
  · rw [if_pos hs] at hn; simp at hn
  · rw [if_neg hs] at hn
    exact main _ j hn

/-- Witness for `id_invariant_cardinal` at `ids = [['a']]` and `s = "abc"`. -/
theorem id_invariant_cardinal_witness :
    (ID.mk [("a").data]).ids ≠ [] ∧
    ID.cardinal_id (ID.mk [("abc").data]) = some (("abc").data) := by
  have h := id_invariant_cardinal [("a").data] (("abc").data)
    (ID.mk [("a").data]) (ID.mk [("abc").data]) rfl rfl
  refine ⟨h.1.1, ?_⟩
  obtain ⟨c, rest, hcr, hcard⟩ := h.2.2.2
  have : c = ("abc").data := by
    have := congrArg List.head? hcr
    simpa using this.symm
  rw [hcard, this]

/-- C8: `position_stream_name` appends the reserved `"position"` type exactly
when it is not already in the category's type list, uses the consumer
identifier (when given, parsed as an `ID`) as the stream id, and in
particular maps `("account", "svc1")` to `"account:position-svc1"` and
`("account:command", "svc1")` to `"account:command+position-svc1"`. -/
theorem position_stream_name_spec (c : Category) (ident : Option (List Char))
    (sn : StreamName) (h : position_stream_name c ident = .ok sn) :
    sn.category.entity_name = c.entity_name ∧
    sn.category.types =
      (if c.types.any (fun t => t = ("position").data) then c.types
       else c.types ++ [("position").data]) ∧
    (ident = none → sn.id = none) ∧
    (∀ i, ident = some i → ∃ idv, ID.from_str i = .ok idv ∧ sn.id = some idv) ∧
    (∃ sn1, (Category.from_str (("account").data)).bind
        (fun c1 => position_stream_name c1 (some (("svc1").data))) = .ok sn1 ∧
      StreamName.fmt sn1 = ("account:position-svc1").data) ∧
    (∃ sn2, (Category.from_str (("account:command").data)).bind
        (fun c2 => position_stream_name c2 (some (("svc1").data))) = .ok sn2 ∧
      StreamName.fmt sn2 = ("account:command+position-svc1").data) := by
  unfold position_stream_name at h
  dsimp only at h
  cases hid : ident with
  | none =>
    subst hid
    dsimp only at h
    by_cases hcond : c.types.any (fun t => t = ("position").data)
    · rw [if_pos hcond] at h
      obtain rfl := by simpa using h
      exact ⟨rfl, by rw [if_pos hcond], fun _ => rfl, by simp,
        ⟨_, rfl, rfl⟩, ⟨_, rfl, rfl⟩⟩
    · rw [if_neg hcond] at h
      obtain rfl := by simpa using h
      exact ⟨rfl, by rw [if_neg hcond], fun _ => rfl, by simp,
        ⟨_, rfl, rfl⟩, ⟨_, rfl, rfl⟩⟩
  | some i =>
    subst hid
    dsimp only at h
    cases hi : ID.from_str i with
    | error e => rw [hi] at h; simp at h
    | ok idv =>
      rw [hi] at h
      dsimp only at h
      by_cases hcond : c.types.any (fun t => t = ("position").data)
      · rw [if_pos hcond] at h
        obtain rfl := by simpa using h
        refine ⟨rfl, by rw [if_pos hcond], by simp, ?_, ⟨_, rfl, rfl⟩, ⟨_, rfl, rfl⟩⟩
        intro j hj
        obtain rfl := Option.some.inj hj
        exact ⟨idv, hi, rfl⟩
      · rw [if_neg hcond] at h
        obtain rfl := by simpa using h
        refine ⟨rfl, by rw [if_neg hcond], by simp, ?_, ⟨_, rfl, rfl⟩, ⟨_, rfl, rfl⟩⟩
        intro j hj
        obtain rfl := Option.some.inj hj
        exact ⟨idv, hi, rfl⟩

/-- Witness for `position_stream_name_spec` at category `"account"` (no
types) and identifier `"svc1"`. -/
theorem position_stream_name_spec_witness :
    ({ category := { entity_name := ("account").data, types := [("position").data] }
       id := some { ids := [("svc1").data] } } : StreamName).category.entity_name =
      ("account").data :=
  (position_stream_name_spec { entity_name := ("account").data, types := [] }
    (some (("svc1").data)) _ rfl).1

/-- C9 counterexample: on default metadata (all fields absent),
`metaC.follow(metaB)` followed by `metaC.follows(metaB)` is `false`, because
`follows` returns `false` when both the causation stream name and the
source's stream name are `None` — refuting the claim for arbitrary metadata
values. -/
theorem follow_follows_default_false :
    (Metadata.follow Metadata.mk_default Metadata.mk_default).follows
      Metadata.mk_default = false := rfl

/-- C9 (amended): `metaC.follow(metaB)` followed by `metaC.follows(metaB)`
is `true` provided `metaB`'s own `stream_name`, `position` and
`global_position` are all set; and `follows` is `true` only when every
causation field of `metaC` equals the corresponding source field of `metaB`
(so it is `false` whenever any of them differs). -/
theorem metadata_follow_follows :
    (∀ b c : Metadata, b.stream_name ≠ none → b.position ≠ none →
      b.global_position ≠ none → (Metadata.follow c b).follows b = true) ∧
    (∀ b c : Metadata, Metadata.follows c b = true →
      c.causation_message_stream_name = b.stream_name ∧
      c.causation_message_position = b.position ∧
      c.causation_message_global_position = b.global_position) := by
  constructor
  · intro b c h1 h2 h3
    unfold Metadata.follows Metadata.follow
    simp only
    rw [if_neg (by simp [h1]), if_neg (by simp), if_neg (by simp [h2]), if_neg (by simp),
      if_neg (by simp [h3]), if_neg (by simp), if_neg (by simp), if_neg (by simp)]
  · intro b c h
    unfold Metadata.follows at h
    split_ifs at h with h1 h2 h3 h4 h5 h6 h7 h8
    exact ⟨not_not.mp h2, not_not.mp h4, not_not.mp h6⟩

/-- Witness for `metadata_follow_follows` at a concrete predecessor whose
source fields are all set. -/
theorem metadata_follow_follows_witness :
    (Metadata.follow Metadata.mk_default meta_b).follows meta_b = true :=
  metadata_follow_follows.1 meta_b Metadata.mk_default
    (fun h => Option.noConfusion h) (fun h => Option.noConfusion h)
    (fun h => Option.noConfusion h)

theorem step_update_position_messages {T : Type} (s : CategoryStream T) (env : PollEnv) :
    (step_update_position s env).messages = s.messages := by
  unfold step_update_position
  cases s.update_position_future <;> cases env.position_poll <;> rfl

theorem step_update_position_pui {T : Type} (s : CategoryStream T) (env : PollEnv) :
    (step_update_position s env).position_update_interval = s.position_update_interval := by
  unfold step_update_position
  cases s.update_position_future <;> cases env.position_poll <;> rfl

theorem step_update_position_msl {T : Type} (s : CategoryStream T) (env : PollEnv) :
    (step_update_position s env).messages_since_last_position_update =
      s.messages_since_last_position_update := by
  unfold step_update_position
  cases s.update_position_future <;> cases env.position_poll <;> rfl

theorem step_update_position_epv {T : Type} (s : CategoryStream T) (env : PollEnv) :
    (step_update_position s env).expected_position_version = s.expected_position_version := by
  unfold step_update_position
  cases s.update_position_future <;> cases env.position_poll <;> rfl

theorem step_update_position_csn {T : Type} (s : CategoryStream T) (env : PollEnv) :
    (step_update_position s env).consumer_stream_name = s.consumer_stream_name := by
  unfold step_update_position
  cases s.update_position_future <;> cases env.position_poll <;> rfl

theorem step_update_position_update_some {T : Type} (s : CategoryStream T) (env : PollEnv)
    (w : WriteRequest)
    (h : (step_update_position s env).update_position_future = some w) :
    s.update_position_future = some w := by
  unfold step_update_position at h
  split at h
  · simp at h
  · exact h

theorem checkpoint_step_update {T : Type} (s2 : CategoryStream T) (first : GenericMessage)
    (more : List GenericMessage) :
    (checkpoint_step s2 first more).update_position_future =
      (if s2.position_update_interval ≤
          s2.messages_since_last_position_update + (first :: more).length
       then some (write_consumer_position_request s2.consumer_stream_name
          first.global_position s2.expected_position_version)
       else s2.update_position_future) := by
  unfold checkpoint_step
  dsimp only
  by_cases hc : s2.position_update_interval ≤
      s2.messages_since_last_position_update + (first :: more).length
  · rw [if_pos hc, if_pos hc]
  · rw [if_neg hc, if_neg hc]

theorem checkpoint_step_epv {T : Type} (s2 : CategoryStream T) (first : GenericMessage)
    (more : List GenericMessage) :
    (checkpoint_step s2 first more).expected_position_version =
      (if s2.position_update_interval ≤
          s2.messages_since_last_position_update + (first :: more).length
       then s2.expected_position_version + 1
       else s2.expected_position_version) := by
  unfold checkpoint_step
  dsimp only
  by_cases hc : s2.position_update_interval ≤
      s2.messages_since_last_position_update + (first :: more).length
  · rw [if_pos hc, if_pos hc]
  · rw [if_neg hc, if_neg hc]

theorem checkpoint_step_msl {T : Type} (s2 : CategoryStream T) (first : GenericMessage)
    (more : List GenericMessage) :
    (checkpoint_step s2 first more).messages_since_last_position_update =
      (if s2.position_update_interval ≤
          s2.messages_since_last_position_update + (first :: more).length
       then 0
       else s2.messages_since_last_position_update + (first :: more).length) := by
  unfold checkpoint_step
  dsimp only
  by_cases hc : s2.position_update_interval ≤
      s2.messages_since_last_position_update + (first :: more).length
  · rw [if_pos hc, if_pos hc]
  · rw [if_neg hc, if_neg hc]

theorem handle_batch_update {T : Type} (dec : Json → Except (List Char) T)
    (s2 : CategoryStream T) (first : GenericMessage) (more : List GenericMessage) :
    (handle_batch dec s2 first more).2.update_position_future =
      (checkpoint_step s2 first more).update_position_future := by
  unfold handle_batch
  dsimp only
  cases Message.deserialize_data dec first with
  | error e => rfl
  | ok d =>
    cases more.mapM (Message.deserialize_data dec) with
    | ok ds => rfl
    | error e => rfl

theorem handle_batch_epv {T : Type} (dec : Json → Except (List Char) T)
    (s2 : CategoryStream T) (first : GenericMessage) (more : List GenericMessage) :
    (handle_batch dec s2 first more).2.expected_position_version =
      (checkpoint_step s2 first more).expected_position_version := by
  unfold handle_batch
  dsimp only
  cases Message.deserialize_data dec first with
  | error e => rfl
  | ok d =>
    cases more.mapM (Message.deserialize_data dec) with
    | ok ds => rfl
    | error e => rfl

theorem handle_batch_msl {T : Type} (dec : Json → Except (List Char) T)
    (s2 : CategoryStream T) (first : GenericMessage) (more : List GenericMessage) :
    (handle_batch dec s2 first more).2.messages_since_last_position_update =
      (checkpoint_step s2 first more).messages_since_last_position_update := by
  unfold handle_batch
  dsimp only
  cases Message.deserialize_data dec first with
  | error e => rfl
  | ok d =>
    cases more.mapM (Message.deserialize_data dec) with
    | ok ds => rfl
    | error e => rfl

/-- C3: when the buffer is non-empty, `poll_next` dequeues and returns its
head, and every other piece of engine state — the armed fetch slot, the
in-flight checkpoint write, `expected_version`, and the
messages-since-checkpoint counter — is unchanged. -/
theorem poll_next_buffer_head {T : Type} (dec : Json → Except (List Char) T)
    (s : CategoryStream T) (env : PollEnv) (m : Message T) (rest : List (Message T))
    (h : s.messages = m :: rest) :
    poll_next dec s env = (.item (.ok m), { s with messages := rest }) := by
  unfold poll_next
  rw [h]

/-- A concrete already-decoded message for buffer examples. -/
def unit_msg : Message Unit :=
  { id := ("u1").data
    stream_name := sn_entity
    msg_type := ("Deposited").data
    position := 0
    global_position := 5
    data := ()
    metadata := Metadata.mk_default
    time := 0 }

/-- Witness for `poll_next_buffer_head`: a buffered engine polled on a tick
whose fetch is even ready still just pops the head. -/
theorem poll_next_buffer_head_witness :
    poll_next dec0 { engine_a with messages := [unit_msg] } env_batch1 =
      (.item (.ok unit_msg), { engine_a with messages := ([] : List (Message Unit)) }) :=
  poll_next_buffer_head dec0 { engine_a with messages := [unit_msg] } env_batch1
    unit_msg [] rfl

/-- C1: a freshly subscribed engine resumes from the checkpoint stream's last
`"position"`-typed message: its `expected_version` is that message's own
stream position and its first fetch starts at the decoded `{position}` plus
one; with no checkpoint message both are `-1`. -/
theorem subscribe_resume {T : Type} (cn : List Char) (opts : SubscribeToCategoryOpts)
    (m : GenericMessage) (P : Int) (s s0 : CategoryStream T)
    (hdec : Recorded.from_json (m.data.getD Json.null) = some { position := P })
    (hs : subscribe_to_category cn opts (some m) = .ok s)
    (hs0 : subscribe_to_category cn opts none = .ok s0) :
    s.expected_position_version = m.position ∧
    s.fut.opts.position = some (P + 1) ∧
    s0.expected_position_version = -1 ∧
    s0.fut.opts.position = some (-1) := by
  unfold subscribe_to_category at hs hs0
  cases hc : Category.from_str cn with
  | error e => rw [hc] at hs; simp at hs
  | ok cat =>
    rw [hc] at hs hs0
    dsimp only at hs hs0
    cases hp : position_stream_name cat opts.identifier with
    | error e => rw [hp] at hs; simp at hs
    | ok psn =>
      rw [hp] at hs hs0
      dsimp only at hs hs0
      rw [hdec] at hs
      dsimp only at hs
      obtain rfl := by simpa using hs
      obtain rfl := by simpa using hs0
      exact ⟨rfl, rfl, rfl, rfl⟩

/-- Witness for `subscribe_resume`: category `"account"`, default options,
checkpoint message at stream position 3 with payload `{"position": 7}`. -/
theorem subscribe_resume_witness :
    engine_resume.expected_position_version = checkpoint_msg.position ∧
    engine_resume.fut.opts.position = some (7 + 1) ∧
    engine_fresh.expected_position_version = -1 ∧
    engine_fresh.fut.opts.position = some (-1) :=
  subscribe_resume (("account").data) {} checkpoint_msg 7 engine_resume engine_fresh
    rfl rfl rfl

/-- C2 counterexample: (a) with `position_update_interval = 0` — which the
claim says disables checkpointing — a non-empty batch still starts a
checkpoint write (the `usize` counter is always `>= 0`); (b) with a
checkpoint write already in flight, reaching the threshold starts a new
write anyway, overwriting the in-flight one. -/
theorem poll_next_checkpoint_counterexample :
    engine_a.position_update_interval = 0 ∧
    engine_a.update_position_future = none ∧
    (poll_next dec0 engine_a env_batch1).2.update_position_future =
      some (write_consumer_position_request (("account:position").data) 5 (-1)) ∧
    engine_b.update_position_future =
      some (write_consumer_position_request (("account:position").data) 99 77) ∧
    env_batch1.position_poll = none ∧
    (poll_next dec0 engine_b env_batch1).2.update_position_future =
      some (write_consumer_position_request (("account:position").data) 5 0) ∧
    write_consumer_position_request (("account:position").data) 5 0 ≠
      write_consumer_position_request (("account:position").data) 99 77 := by
  refine ⟨rfl, rfl, rfl, rfl, rfl, rfl, ?_⟩
  intro h
  have h2 := congrArg WriteRequest.expected_version h
  simp only [write_consumer_position_request] at h2
  exact absurd (Option.some.inj h2) (by decide)

/-- C2 (amended): after a non-empty successful batch, the engine starts a
new checkpoint write (recording the batch head's global position with the
current `expected_version`, then bumping `expected_version` and resetting
the counter) exactly when the count of messages since the last checkpoint,
including this batch, has reached `position_update_interval` — regardless of
whether a write is already in flight (the new write replaces it), and with
interval `0` checkpointing after every non-empty batch; otherwise the slot
is whatever step 2 left there and only the counter grows. -/
theorem poll_next_checkpoint_condition {T : Type} (dec : Json → Except (List Char) T)
    (s : CategoryStream T) (env : PollEnv) (first : GenericMessage)
    (more : List GenericMessage) (opts : GetCategoryMessagesOpts) (elapsed : Nat)
    (hbuf : s.messages = [])
    (hfetch : env.fetch_poll = some (.ok (first :: more), opts, elapsed)) :
    (poll_next dec s env).2.update_position_future =
      (if s.position_update_interval ≤
          s.messages_since_last_position_update + (first :: more).length
       then some (write_consumer_position_request s.consumer_stream_name
          first.global_position s.expected_position_version)
       else (step_update_position s env).update_position_future) ∧
    (poll_next dec s env).2.expected_position_version =
      (if s.position_update_interval ≤
          s.messages_since_last_position_update + (first :: more).length
       then s.expected_position_version + 1
       else s.expected_position_version) ∧
    (poll_next dec s env).2.messages_since_last_position_update =
      (if s.position_update_interval ≤
          s.messages_since_last_position_update + (first :: more).length
       then 0
       else s.messages_since_last_position_update + (first :: more).length) := by
  unfold poll_next
  rw [hbuf, hfetch]
  dsimp only
  rw [handle_batch_update, handle_batch_epv, handle_batch_msl,
    checkpoint_step_update, checkpoint_step_epv, checkpoint_step_msl]
  dsimp only
  rw [step_update_position_pui, step_update_position_msl, step_update_position_epv,
    step_update_position_csn]
  exact ⟨rfl, rfl, rfl⟩

/-- Witness for `poll_next_checkpoint_condition` at the concrete engine
`engine_b` and the one-message batch tick `env_batch1`. -/
theorem poll_next_checkpoint_condition_witness :
    (poll_next dec0 engine_b env_batch1).2.update_position_future =
      (if engine_b.position_update_interval ≤
          engine_b.messages_since_last_position_update + ([batch_msg5]).length
       then some (write_consumer_position_request engine_b.consumer_stream_name
          batch_msg5.global_position engine_b.expected_position_version)
       else (step_update_position engine_b env_batch1).update_position_future) ∧
    (poll_next dec0 engine_b env_batch1).2.expected_position_version =
      (if engine_b.position_update_interval ≤
          engine_b.messages_since_last_position_update + ([batch_msg5]).length
       then engine_b.expected_position_version + 1
       else engine_b.expected_position_version) ∧
    (poll_next dec0 engine_b env_batch1).2.messages_since_last_position_update =
      (if engine_b.position_update_interval ≤
          engine_b.messages_since_last_position_update + ([batch_msg5]).length
       then 0
       else engine_b.messages_since_last_position_update + ([batch_msg5]).length) :=
  poll_next_checkpoint_condition dec0 engine_b env_batch1 batch_msg5 [] fetch_opts0 0
    rfl rfl

/-- C4: any checkpoint write present after a poll was either already in
flight before it, or was issued by this poll, in which case it records the
`global_position` of the *first* message of the triggering batch, serialized
as `{"position": <integer>}`, written as a `"position"`-typed message to the
engine's checkpoint stream with the current `expected_version`. -/
theorem poll_next_checkpoint_payload {T : Type} (dec : Json → Except (List Char) T)
    (s : CategoryStream T) (env : PollEnv) (w : WriteRequest)
    (h : (poll_next dec s env).2.update_position_future = some w) :
    s.update_position_future = some w ∨
    ∃ first more opts elapsed,
      s.messages = [] ∧
      env.fetch_poll = some (.ok (first :: more), opts, elapsed) ∧
      w = write_consumer_position_request s.consumer_stream_name
        first.global_position s.expected_position_version ∧
      w.msg_type = ("position").data ∧
      w.data = Recorded.to_json { position := first.global_position } ∧
      w.expected_version = some s.expected_position_version ∧
      w.stream_name = s.consumer_stream_name := by
  cases hm : s.messages with
  | cons a rest =>
    left
    unfold poll_next at h
    rw [hm] at h
    dsimp only at h
    exact h
  | nil =>
    unfold poll_next at h
    rw [hm] at h
    dsimp only at h
    cases hf : env.fetch_poll with
    | none =>
      rw [hf] at h
      dsimp only at h
      exact Or.inl (step_update_position_update_some s env w h)
    | some triple =>
      obtain ⟨result, opts, elapsed⟩ := triple
      rw [hf] at h
      dsimp only at h
      cases result with
      | error e =>
        dsimp only at h
        exact Or.inl (step_update_position_update_some s env w h)
      | ok msgs =>
        cases msgs with
        | nil =>
          dsimp only at h
          exact Or.inl (step_update_position_update_some s env w h)
        | cons first morex =>
          dsimp only at h
          rw [handle_batch_update, checkpoint_step_update] at h
          dsimp only at h
          rw [step_update_position_pui, step_update_position_msl, step_update_position_epv,
            step_update_position_csn] at h
          by_cases hcond : s.position_update_interval ≤
              s.messages_since_last_position_update + (first :: morex).length
          · rw [if_pos hcond] at h
            right
            obtain rfl := (Option.some.inj h).symm
            exact ⟨first, morex, opts, elapsed, rfl, rfl, rfl, rfl, rfl, rfl, rfl⟩
          · rw [if_neg hcond] at h
            exact Or.inl (step_update_position_update_some s env w h)

/-- Witness for `poll_next_checkpoint_payload` at `engine_a` and
`env_batch1`. -/
theorem poll_next_checkpoint_payload_witness :
    engine_a.update_position_future =
      some (write_consumer_position_request (("account:position").data) 5 (-1)) ∨
    ∃ first more opts elapsed,
      engine_a.messages = [] ∧
      env_batch1.fetch_poll = some (.ok (first :: more), opts, elapsed) ∧
      write_consumer_position_request (("account:position").data) 5 (-1) =
        write_consumer_position_request engine_a.consumer_stream_name
          first.global_position engine_a.expected_position_version ∧
      (write_consumer_position_request (("account:position").data) 5 (-1)).msg_type =
        ("position").data ∧
      (write_consumer_position_request (("account:position").data) 5 (-1)).data =
        Recorded.to_json { position := first.global_position } ∧
      (write_consumer_position_request (("account:position").data) 5 (-1)).expected_version =
        some engine_a.expected_position_version ∧
      (write_consumer_position_request (("account:position").data) 5 (-1)).stream_name =
        engine_a.consumer_stream_name :=
  poll_next_checkpoint_payload dec0 engine_a env_batch1
    (write_consumer_position_request (("account:position").data) 5 (-1)) rfl
